import Mathlib

/-!
Shallow embedding of the gpt-turbo conversation engine
(`packages/lib/src/classes/Conversation.ts` and
`packages/lib/src/classes/ConversationConfig.ts`), together with proofs of
the specification's claims about it.

Conventions: TypeScript strings are Lean `String`s; the JS truthiness test
on a string is emptiness; the tri-state `disableModeration` value
(`false | true | "soft"`) is an explicit inductive type; asynchronous
collaborators (plugin hooks, moderation, completion) are modelled as
oracle outcomes of type `Except ε _` supplied in an environment record,
since the engine only branches on whether they succeed or fail.
-/

namespace GptTurbo

/-- Message roles (`system | user | assistant | function`). -/
inductive Role where
  | system
  | user
  | assistant
  | function
deriving DecidableEq, Repr

/-- One message of the conversation history: `id` (uuid), `role`,
`content` (nullable during in-flight function calls), `name`
(present for function messages). -/
structure Message where
  id : String
  role : Role
  content : Option String
  name : Option String := none
deriving DecidableEq, Repr

/-- The tri-state `disableModeration` config value: `false | true | "soft"`. -/
inductive DisableModeration where
  | off      -- the TS literal `false`
  | on       -- the TS literal `true`
  | soft     -- the TS literal `"soft"`
deriving DecidableEq, Repr

/-- JS truthiness of the tri-state: only the literal `false` is falsy. -/
def DisableModeration.truthy : DisableModeration → Bool
  | .off => false
  | .on => true
  | .soft => true

/-- Character-list trim: drop whitespace from the front and from the back.
Models `String.prototype.trim`. -/
def trimChars (l : List Char) : List Char :=
  ((l.dropWhile Char.isWhitespace).reverse.dropWhile Char.isWhitespace).reverse

/-- String trim, models the JS `context.trim()` calls. -/
def trimStr (s : String) : String :=
  ⟨trimChars s.toList⟩

/-- Default context string (`DEFAULT_CONTEXT`), per the `@default` doc of
`ConversationConfigParameters.context`. -/
def DEFAULT_CONTEXT : String :=
  "You are a large language model trained by OpenAI. Answer as concisely as possible."

/-- Modelled from the spec: `DEFAULT_DRY` lives in the missing
`config/constants.ts`; the `@default false` doc comment on
`ConversationConfigParameters.dry` gives its value. -/
def DEFAULT_DRY : Bool := false

/-- Modelled from the spec: `DEFAULT_DISABLEMODERATION` lives in the missing
`config/constants.ts`; the `@default false` doc comment on
`ConversationConfigParameters.disableModeration` gives its value. -/
def DEFAULT_DISABLEMODERATION : DisableModeration := .off

/-- Modelled from the spec: `DEFAULT_MODEL` lives in the missing
`config/constants.ts`; its exact value is irrelevant to every claim. -/
def DEFAULT_MODEL : String := "gpt-3.5-turbo"

/-- Modelled from the spec: `DEFAULT_STREAM` lives in the missing
`config/constants.ts`; its exact value is irrelevant to every claim. -/
def DEFAULT_STREAM : Bool := false

/-- The optional constructor parameters of `ConversationConfig`
(`ConversationConfigParameters`); `none` means the caller omitted the field
and the default applies. -/
structure ConversationConfigParameters where
  apiKey : Option String := none
  context : Option String := none
  dry : Option Bool := none
  disableModeration : Option DisableModeration := none
  model : Option String := none
  stream : Option Bool := none
deriving Repr

/-- The mutable state of a `ConversationConfig` instance: the backing
fields `_apiKey`, `_context`, `_dry` plus the plain public fields the
claims mention. -/
structure ConversationConfig where
  apiKey : String
  context : String
  dry : Bool
  disableModeration : DisableModeration
  model : String
  stream : Bool
deriving DecidableEq, Repr

namespace ConversationConfig

/-- The `dry` setter:
`this._dry = dry; if (!dry && !this.apiKey) { warn; this._dry = true; }`
(the conditional reads the `dry` parameter and the untouched `apiKey`
backing field, so storing `dry` and conditionally overriding it with `true`
is written as one conditional store). -/
def setDry (c : ConversationConfig) (d : Bool) : ConversationConfig :=
  if !d && c.apiKey = "" then { c with dry := true } else { c with dry := d }

/-- The `apiKey` setter: stores the key, then re-runs the `dry` setter on
the current `dry` value (`this.dry = this.dry // Revalidate dry mode`).
After construction `this.dry` is always defined, so the
`!== undefined` guard always passes here. -/
def setApiKey (c : ConversationConfig) (k : String) : ConversationConfig :=
  let c := { c with apiKey := k }
  c.setDry c.dry

/-- The `context` setter: `this._context = context.trim()`. -/
def setContext (c : ConversationConfig) (s : String) : ConversationConfig :=
  { c with context := trimStr s }

/-- The `disableModeration` public field assignment. -/
def setDisableModeration (c : ConversationConfig) (d : DisableModeration) :
    ConversationConfig :=
  { c with disableModeration := d }

/-- The `ConversationConfig` constructor. Field-by-field translation:
`this.apiKey = apiKey` runs while `this._dry` is still `undefined`, so the
apiKey setter's revalidation branch is skipped there (modelled by writing
the backing field directly); then `this.dry = dry` runs the dry setter,
`this.context = context.trim()` feeds the trimmed value into the (again
trimming) context setter, and the remaining fields are plain writes. -/
def mk' (p : ConversationConfigParameters) : ConversationConfig :=
  let context := p.context.getD DEFAULT_CONTEXT
  let dry := p.dry.getD DEFAULT_DRY
  let disableModeration := p.disableModeration.getD DEFAULT_DISABLEMODERATION
  let apiKey := p.apiKey.getD ""
  let model := p.model.getD DEFAULT_MODEL
  let stream := p.stream.getD DEFAULT_STREAM
  let c0 : ConversationConfig :=
    { apiKey := apiKey, context := "", dry := false,
      disableModeration := disableModeration, model := model, stream := stream }
  let c1 := c0.setDry dry
  let c2 := c1.setContext (trimStr context)
  c2

/-- `get isModerationStrict`: `if (!this.apiKey) return false; return !this.disableModeration;`. -/
def isModerationStrict (c : ConversationConfig) : Bool :=
  if c.apiKey = "" then false else !c.disableModeration.truthy

/-- `get isModerationSoft`: `if (!this.apiKey) return false; return this.disableModeration === "soft";`. -/
def isModerationSoft (c : ConversationConfig) : Bool :=
  if c.apiKey = "" then false else c.disableModeration = .soft

/-- `get isModerationEnabled`: `this.isModerationStrict || this.isModerationSoft`. -/
def isModerationEnabled (c : ConversationConfig) : Bool :=
  c.isModerationStrict || c.isModerationSoft

end ConversationConfig

/-- One public assignment to a `ConversationConfig` instance. -/
inductive ConfigOp where
  | setApiKey (k : String)
  | setDry (d : Bool)
  | setContext (s : String)
  | setDisableModeration (d : DisableModeration)
deriving Repr

/-- Apply one assignment. -/
def applyConfigOp (c : ConversationConfig) : ConfigOp → ConversationConfig
  | .setApiKey k => c.setApiKey k
  | .setDry d => c.setDry d
  | .setContext s => c.setContext s
  | .setDisableModeration d => c.setDisableModeration d

/-- Apply a sequence of assignments, oldest first. -/
def applyConfigOps (c : ConversationConfig) (ops : List ConfigOp) :
    ConversationConfig :=
  ops.foldl applyConfigOp c

/-- Modelled from the spec: `ConversationHistory.removeMessage` lives in the
missing `ConversationHistory.ts`; §4.1 says it removes by identity or id and
is a no-op when absent. -/
def removeMessage (h : List Message) (id : String) : List Message :=
  h.filter (fun m => m.id ≠ id)

/-- Modelled from the spec: `ConversationHistory.addUserMessage` lives in the
missing `ConversationHistory.ts`; §4.1 says it appends a role=user message
with the given content. The fresh uuid is passed in explicitly. -/
def addUserMessage (h : List Message) (id content : String) :
    List Message × Message :=
  let m : Message := { id := id, role := .user, content := some content }
  (h ++ [m], m)

/-- Modelled from the spec: `ConversationHistory.addFunctionMessage` lives in
the missing `ConversationHistory.ts`; §4.1 says it appends a role=function
message carrying the function's `name`. The fresh uuid is passed in
explicitly. -/
def addFunctionMessage (h : List Message) (id content name : String) :
    List Message × Message :=
  let m : Message :=
    { id := id, role := .function, content := some content, name := some name }
  (h ++ [m], m)

/-- A JS value reaching `functionPrompt`'s `result` parameter: the
`typeof transformedResult === "string"` test distinguishes `str` from the
rest. -/
inductive JsValue where
  | str (s : String)
  | num (n : Int)
  | bool (b : Bool)
  | null
  | arr (xs : List JsValue)
  | obj (fields : List (String × JsValue))

/-- Minimal string escaping of `JSON.stringify` for the characters the
claims exercise. -/
def jsonEscape (s : String) : String :=
  s.toList.foldl
    (fun acc c =>
      if c = '"' then acc ++ "\\\""
      else if c = '\\' then acc ++ "\\\\"
      else acc.push c)
    ""

mutual

/-- `JSON.stringify` on the modelled JS values. -/
def jsonStringify : JsValue → String
  | .str s => "\"" ++ jsonEscape s ++ "\""
  | .num n => toString n
  | .bool b => if b then "true" else "false"
  | .null => "null"
  | .arr xs => "[" ++ jsonStringifyArr xs ++ "]"
  | .obj fs => "\x7b" ++ jsonStringifyObj fs ++ "\x7d"

/-- Comma-joined stringification of array elements. -/
def jsonStringifyArr : List JsValue → String
  | [] => ""
  | [x] => jsonStringify x
  | x :: xs => jsonStringify x ++ "," ++ jsonStringifyArr xs

/-- Comma-joined stringification of object fields. -/
def jsonStringifyObj : List (String × JsValue) → String
  | [] => ""
  | [(k, v)] => "\"" ++ jsonEscape k ++ "\":" ++ jsonStringify v
  | (k, v) :: fs =>
      "\"" ++ jsonEscape k ++ "\":" ++ jsonStringify v ++ "," ++
        jsonStringifyObj fs

end

/-- The stringification `functionPrompt` applies to the transformed result:
`typeof r === "string" ? r : JSON.stringify(r)`. -/
def functionResultToContent : JsValue → String
  | .str s => s
  | v => jsonStringify v

/-- The outcomes of the asynchronous collaborators one `prompt` call awaits.
Modelled from the spec (§4.2 / §4.3 / §4.4): the plugin service, moderation
gate and completion service live in files missing from `src/`; §4.2 says a
failing hook propagates its error to the caller, so each collaborator is an
`Except ε _` outcome. The error hook's outcome may depend on the error it
receives. -/
structure PromptEnv (ε : Type) where
  hookResult : Except ε Unit
  moderationResult : Except ε Unit
  completionResult : Except ε Message
  errorHookResult : ε → Except ε Unit

/-- What one `prompt` / `functionPrompt` call left behind: the final
history, the returned message or thrown error, and whether the
`on*PromptError` hook ran. -/
structure PromptResult (ε : Type) where
  history : List Message
  outcome : Except ε Message
  errorHookCalled : Bool
deriving Repr

/-- The body of the `try` block: `await on*Prompt(m)`, then
`await moderateMessage(m)`, then `return await getAssistantResponse(...)`;
the first stage to fail short-circuits with its error. -/
def stagesExcept {ε : Type} (env : PromptEnv ε) : Except ε Message :=
  match env.hookResult with
  | .error e => .error e
  | .ok _ =>
    match env.moderationResult with
    | .error e => .error e
    | .ok _ => env.completionResult

/-- The shared `try/catch` tail of `prompt` and `functionPrompt`, starting
from the history `h1` that already contains the just-added message `m`:
`try { await on*Prompt(m); await moderateMessage(m);
       return await getAssistantResponse(...); }
 catch (e) { await on*PromptError(e); history.removeMessage(m); throw e; }`.
A rejection of the error hook aborts the catch block itself: the removal
and the rethrow are skipped and the hook's error propagates. On success the
assistant message (appended to the history by the completion service,
spec §2) is returned. -/
def runPromptStages {ε : Type} (env : PromptEnv ε) (h1 : List Message)
    (m : Message) : PromptResult ε :=
  match stagesExcept env with
  | .ok assistantMessage =>
      { history := h1 ++ [assistantMessage], outcome := .ok assistantMessage,
        errorHookCalled := false }
  | .error e =>
      match env.errorHookResult e with
      | .ok _ =>
          { history := removeMessage h1 m.id, outcome := .error e,
            errorHookCalled := true }
      | .error e2 =>
          { history := h1, outcome := .error e2, errorHookCalled := true }

/-- `Conversation.prompt`: append the user message, then run the
hook/moderation/completion stages with rollback on failure. `freshId` is
the uuid `addUserMessage` assigns to the new message. -/
def prompt {ε : Type} (env : PromptEnv ε) (h : List Message)
    (freshId promptText : String) : PromptResult ε :=
  let (h1, userMessage) := addUserMessage h freshId promptText
  runPromptStages env h1 userMessage

/-- `Conversation.functionPrompt`: first `transformFunctionResult` (outside
the `try`), then append the role=function message with the stringified
transformed result, then the same stages as `prompt` with the
function-specific hooks. A failing transform propagates before any message
is added and before the `try` block is entered. -/
def functionPrompt {ε : Type} (env : PromptEnv ε)
    (transformResult : Except ε JsValue) (h : List Message)
    (freshId name : String) : PromptResult ε :=
  match transformResult with
  | .error e => { history := h, outcome := .error e, errorHookCalled := false }
  | .ok transformedResult =>
      let (h1, functionMessage) :=
        addFunctionMessage h freshId (functionResultToContent transformedResult)
          name
      runPromptStages env h1 functionMessage

/-- The function message `functionPrompt` creates for a transformed result,
for stating what the stages operate on. -/
def functionPromptMessage (freshId name : String) (v : JsValue) : Message :=
  { id := freshId, role := .function, content := some (functionResultToContent v),
    name := some name }

/-- The two `throw new Error(...)` cases of `Conversation.reprompt`. -/
inductive RepromptError where
  | messageNotFound (id : String)
  | noPreviousUserMessage (id : String)
deriving DecidableEq, Repr

/-- The backward walk of `reprompt`: starting at index `j` (the target's
index), step back while the current message's role is not `user`, stopping
below index 0; returns the index and message found, or `none` when the
subsequent `previousUserMessage?.role !== "user"` check throws. -/
def prevUser (messages : List Message) : Nat → Option (Nat × Message)
  | 0 =>
    match messages[0]? with
    | none => none
    | some m => if m.role = .user then some (0, m) else none
  | j' + 1 =>
    match messages[j' + 1]? with
    | none => none
    | some m =>
        if m.role = .user then some (j' + 1, m) else prevUser messages j'

/-- The resolution/truncation part of `Conversation.reprompt`, everything
before the final `this.prompt(prompt, ...)` call: resolve the target id
(`findIndex`, throw if absent), walk back to the previous user message
(throw if absent), remove `messages.slice(previousUserMessageIndex)` one
`removeMessage` at a time, and select the reissued prompt content
(`newPrompt ?? previousUserMessage.content ?? ""`). Both throws happen
before any removal, so on error the history component is the input
history. -/
def repromptResolve (h : List Message) (fromId : String)
    (newPrompt : Option String) : List Message × Except RepromptError String :=
  match h.findIdx? (fun m => m.id = fromId) with
  | none => (h, .error (.messageNotFound fromId))
  | some fromIndex =>
      match prevUser h fromIndex with
      | none => (h, .error (.noPreviousUserMessage fromId))
      | some (previousUserMessageIndex, previousUserMessage) =>
          let h' := (h.drop previousUserMessageIndex).foldl
            (fun acc m => removeMessage acc m.id) h
          let promptContent :=
            newPrompt.getD (previousUserMessage.content.getD "")
          (h', .ok promptContent)

/-- `Conversation.reprompt` in full: the resolution/truncation above
followed by `this.prompt(prompt, options, requestOptions)` on the truncated
history. -/
def reprompt {ε : Type} (env : PromptEnv ε) (h : List Message)
    (fromId : String) (newPrompt : Option String) (freshId : String) :
    List Message × Except (RepromptError ⊕ ε) Message :=
  match repromptResolve h fromId newPrompt with
  | (h', .error e) => (h', .error (.inl e))
  | (h', .ok promptContent) =>
      let r := prompt env h' freshId promptContent
      (r.history,
        match r.outcome with
        | .ok m => .ok m
        | .error e => .error (.inr e))

/-- The serialized shape of a conversation's config. Modelled from the
spec: `ConversationConfig.toJSON` is not under `src/`; the persisted config
is the constructor-parameter shape the `fromJSON` path feeds back into
`new ConversationConfig(...)`. -/
def configToJSON (c : ConversationConfig) : ConversationConfigParameters :=
  { apiKey := some c.apiKey, context := some c.context, dry := some c.dry,
    disableModeration := some c.disableModeration, model := some c.model,
    stream := some c.stream }

/-- The observable state of a `Conversation` the round-trip contract talks
about: id, config, request options, callable-function registry, history,
and per-plugin data. Request options, registry entries and plugin payloads
are opaque to every claim, so they are carried as strings. -/
structure Conversation where
  id : String
  config : ConversationConfig
  requestOptions : String
  callableFunctions : List String
  history : List Message
  pluginsData : List (String × String)
deriving DecidableEq, Repr

/-- The JSON shape of a serialized conversation
(`{ id, config, requestOptions, callableFunctions, history, pluginsData }`,
spec §6). -/
structure ConversationModel where
  id : String
  config : ConversationConfigParameters
  requestOptions : String
  callableFunctions : List String
  history : List Message
  pluginsData : List (String × String)

/-- Modelled from the spec: `conversationSchema.parse` lives in the missing
`schemas/conversation.schema.ts`; on a well-typed model the zod validation
succeeds and returns the model itself. -/
def conversationSchemaParse (j : ConversationModel) : ConversationModel := j

/-- The untransformed JSON `Conversation.toJSON` builds before handing it
to `transformConversationJson`. -/
def toJSONBase (c : Conversation) : ConversationModel :=
  { id := c.id, config := configToJSON c.config,
    requestOptions := c.requestOptions,
    callableFunctions := c.callableFunctions, history := c.history,
    pluginsData := c.pluginsData }

/-- `Conversation.toJSON`: build the JSON, pipe it through the plugin
pipeline's `transformConversationJson` (modelled as an arbitrary function
`t`, the sequential composition of the plugins' transforms), and validate
the result against the schema. -/
def Conversation.toJSON (c : Conversation)
    (t : ConversationModel → ConversationModel) : ConversationModel :=
  conversationSchemaParse (t (toJSONBase c))

/-- The `new Conversation(options)` constructor on deserialized options:
the config is rebuilt by `new ConversationConfig(...)`; history, request
options, callable functions and plugin data are reconstructed from the
parsed JSON (the plugin data through `onInit` seeding, spec §4.2/§3). -/
def conversationOfModel (j : ConversationModel) : Conversation :=
  { id := j.id, config := ConversationConfig.mk' j.config,
    requestOptions := j.requestOptions,
    callableFunctions := j.callableFunctions, history := j.history,
    pluginsData := j.pluginsData }

/-- `Conversation.fromJSON`: `conversationSchema.parse(json)` then
`new Conversation(conversationOptions)`. -/
def Conversation.fromJSON (j : ConversationModel) : Conversation :=
  conversationOfModel (conversationSchemaParse j)

/-- The stored context is a fixed point of trimming (the invariant the
`context` accessors maintain). -/
def ConversationConfig.contextTrimmed (c : ConversationConfig) : Prop :=
  c.context = trimStr c.context

/-- The user message `prompt` appends, for stating what the stages operate
on. -/
def userPromptMessage (freshId text : String) : Message :=
  { id := freshId, role := .user, content := some text }

/-- A concrete environment whose first stage fails and whose error hook
itself fails: the `on*Prompt` hook rejects with `"hook failure"` and the
`on*PromptError` hook rejects with `"error hook failure"`. -/
def failingErrorHookEnv : PromptEnv String :=
  { hookResult := .error "hook failure",
    moderationResult := .ok (),
    completionResult := .ok { id := "a1", role := .assistant, content := some "r" },
    errorHookResult := fun _ => .error "error hook failure" }

/-- A concrete environment whose moderation stage fails with `"flagged"`
and whose error hook succeeds. -/
def moderationFailEnv : PromptEnv String :=
  { hookResult := .ok (),
    moderationResult := .error "flagged",
    completionResult := .ok { id := "a1", role := .assistant, content := some "r" },
    errorHookResult := fun _ => .ok () }

/-- The system message of the spec's example history. -/
def sysMsg : Message := { id := "s", role := .system, content := some "ctx" }

/-- The first user message of the spec's example history. -/
def user1Msg : Message := { id := "u1", role := .user, content := some "Hello!" }

/-- The first assistant message of the spec's example history. -/
def asst1Msg : Message := { id := "a1", role := .assistant, content := some "Hi" }

/-- The second user message of the spec's example history. -/
def user2Msg : Message :=
  { id := "u2", role := .user, content := some "How are you?" }

/-- The second assistant message of the spec's example history. -/
def asst2Msg : Message := { id := "a2", role := .assistant, content := some "Good" }

/-- The spec's example history `[sys, user1, asst1, user2, asst2]`. -/
def exampleHistory : List Message :=
  [sysMsg, user1Msg, asst1Msg, user2Msg, asst2Msg]

/-! ### Helper lemmas about `dropWhile` and trimming -/

theorem dropWhile_head?_false {α : Type} (p : α → Bool) (l : List α) (a : α)
    (h : (l.dropWhile p).head? = some a) : p a = false := by
  induction l with
  | nil => simp at h
  | cons x xs ih =>
    rw [List.dropWhile_cons] at h
    by_cases hx : p x = true
    · rw [if_pos hx] at h
      exact ih h
    · rw [if_neg hx] at h
      simp only [List.head?_cons, Option.some.injEq] at h
      subst h
      exact Bool.eq_false_iff.mpr hx

theorem dropWhile_eq_self_of_head {α : Type} (p : α → Bool) (l : List α)
    (h : ∀ a, l.head? = some a → p a = false) : l.dropWhile p = l := by
  cases l with
  | nil => rfl
  | cons x xs =>
    rw [List.dropWhile_cons]
    simp [h x rfl]

theorem getLast?_of_suffix {α : Type} {l₁ l₂ : List α} (h : l₁ <:+ l₂)
    (hne : l₁ ≠ []) : l₁.getLast? = l₂.getLast? := by
  obtain ⟨t, rfl⟩ := h
  exact (List.getLast?_append_of_ne_nil t hne).symm

theorem trimChars_head?_false (l : List Char) (a : Char)
    (h : (trimChars l).head? = some a) : a.isWhitespace = false := by
  unfold trimChars at h
  rw [List.head?_reverse] at h
  have hne : (((l.dropWhile Char.isWhitespace).reverse).dropWhile
      Char.isWhitespace) ≠ [] := by
    intro hnil
    rw [hnil] at h
    simp at h
  have hsuffix := List.dropWhile_suffix (l := (l.dropWhile Char.isWhitespace).reverse)
    Char.isWhitespace
  rw [getLast?_of_suffix hsuffix hne, List.getLast?_reverse] at h
  exact dropWhile_head?_false _ _ _ h

theorem trimChars_getLast?_false (l : List Char) (a : Char)
    (h : (trimChars l).getLast? = some a) : a.isWhitespace = false := by
  unfold trimChars at h
  rw [List.getLast?_reverse] at h
  exact dropWhile_head?_false _ _ _ h

theorem trimChars_idem (l : List Char) : trimChars (trimChars l) = trimChars l := by
  conv_lhs => rw [trimChars]
  rw [dropWhile_eq_self_of_head _ _ (trimChars_head?_false l)]
  rw [dropWhile_eq_self_of_head _ _ (by
    intro a ha
    rw [List.head?_reverse] at ha
    exact trimChars_getLast?_false l a ha)]
  rw [List.reverse_reverse]

theorem toList_trimStr (s : String) : (trimStr s).toList = trimChars s.toList := rfl

theorem toList_mk (l : List Char) : (String.mk l).toList = l := rfl

theorem trimStr_idem (s : String) : trimStr (trimStr s) = trimStr s := by
  unfold trimStr
  rw [toList_mk, trimChars_idem]

/-! ### Helper lemmas about the config invariants -/

/-- The `dry` setter establishes the "no credential forces dry" invariant
unconditionally. -/
theorem setDry_establishes_dry_inv (c : ConversationConfig) (d : Bool) :
    (c.setDry d).apiKey = "" → (c.setDry d).dry = true := by
  unfold ConversationConfig.setDry
  by_cases hk : c.apiKey = "" <;> cases d <;> simp [hk]

theorem setApiKey_establishes_dry_inv (c : ConversationConfig) (k : String) :
    (c.setApiKey k).apiKey = "" → (c.setApiKey k).dry = true := by
  unfold ConversationConfig.setApiKey
  exact setDry_establishes_dry_inv _ _

theorem mk'_dry_inv (p : ConversationConfigParameters) :
    (ConversationConfig.mk' p).apiKey = "" → (ConversationConfig.mk' p).dry = true := by
  unfold ConversationConfig.mk'
  simp only [ConversationConfig.setContext]
  exact setDry_establishes_dry_inv _ _

theorem applyConfigOp_dry_inv (c : ConversationConfig) (op : ConfigOp)
    (h : c.apiKey = "" → c.dry = true) :
    (applyConfigOp c op).apiKey = "" → (applyConfigOp c op).dry = true := by
  cases op with
  | setApiKey k => exact setApiKey_establishes_dry_inv c k
  | setDry d => exact setDry_establishes_dry_inv c d
  | setContext s => exact h
  | setDisableModeration d => exact h

theorem applyConfigOps_dry_inv (c : ConversationConfig) (ops : List ConfigOp)
    (h : c.apiKey = "" → c.dry = true) :
    (applyConfigOps c ops).apiKey = "" → (applyConfigOps c ops).dry = true := by
  induction ops generalizing c with
  | nil => exact h
  | cons op ops ih =>
    exact ih (applyConfigOp c op) (applyConfigOp_dry_inv c op h)

theorem setContext_contextTrimmed (c : ConversationConfig) (s : String) :
    (c.setContext s).contextTrimmed := by
  unfold ConversationConfig.setContext ConversationConfig.contextTrimmed
  exact (trimStr_idem s).symm

theorem mk'_contextTrimmed (p : ConversationConfigParameters) :
    (ConversationConfig.mk' p).contextTrimmed := by
  unfold ConversationConfig.mk'
  exact setContext_contextTrimmed _ _

theorem setDry_context (c : ConversationConfig) (d : Bool) :
    (c.setDry d).context = c.context := by
  unfold ConversationConfig.setDry
  split <;> rfl

theorem setApiKey_context (c : ConversationConfig) (k : String) :
    (c.setApiKey k).context = c.context := by
  unfold ConversationConfig.setApiKey
  exact setDry_context _ _

theorem applyConfigOp_contextTrimmed (c : ConversationConfig) (op : ConfigOp)
    (h : c.contextTrimmed) : (applyConfigOp c op).contextTrimmed := by
  cases op with
  | setApiKey k =>
    unfold ConversationConfig.contextTrimmed at h ⊢
    show (c.setApiKey k).context = trimStr (c.setApiKey k).context
    rw [setApiKey_context]
    exact h
  | setDry d =>
    unfold ConversationConfig.contextTrimmed at h ⊢
    show (c.setDry d).context = trimStr (c.setDry d).context
    rw [setDry_context]
    exact h
  | setContext s => exact setContext_contextTrimmed c s
  | setDisableModeration d =>
    unfold ConversationConfig.contextTrimmed at h ⊢
    exact h

theorem applyConfigOps_contextTrimmed (c : ConversationConfig)
    (ops : List ConfigOp) (h : c.contextTrimmed) :
    (applyConfigOps c ops).contextTrimmed := by
  induction ops generalizing c with
  | nil => exact h
  | cons op ops ih =>
    exact ih (applyConfigOp c op) (applyConfigOp_contextTrimmed c op h)

theorem setDry_apiKey (c : ConversationConfig) (d : Bool) :
    (c.setDry d).apiKey = c.apiKey := by
  unfold ConversationConfig.setDry
  split <;> rfl

theorem setContext_apiKey (c : ConversationConfig) (s : String) :
    (c.setContext s).apiKey = c.apiKey := rfl

theorem mk'_apiKey (p : ConversationConfigParameters) :
    (ConversationConfig.mk' p).apiKey = p.apiKey.getD "" := by
  simp [ConversationConfig.mk', ConversationConfig.setContext, setDry_apiKey]

/-! ### The claims about `ConversationConfig` -/

/-- C3: `isModerationStrict` holds iff the credential is non-empty and
`disableModeration` is the literal `false`; `isModerationSoft` iff the
credential is non-empty and `disableModeration` is `"soft"`;
`isModerationEnabled` iff one of the two holds; and with an empty
credential all three are false regardless of `disableModeration`. -/
theorem moderation_tri_state (c : ConversationConfig) :
    (c.isModerationStrict = true ↔
      c.apiKey ≠ "" ∧ c.disableModeration = .off) ∧
    (c.isModerationSoft = true ↔
      c.apiKey ≠ "" ∧ c.disableModeration = .soft) ∧
    (c.isModerationEnabled = true ↔
      c.isModerationStrict = true ∨ c.isModerationSoft = true) ∧
    (c.apiKey = "" →
      c.isModerationStrict = false ∧ c.isModerationSoft = false ∧
        c.isModerationEnabled = false) := by
  unfold ConversationConfig.isModerationEnabled
    ConversationConfig.isModerationStrict ConversationConfig.isModerationSoft
  by_cases hk : c.apiKey = "" <;>
    cases hdm : c.disableModeration <;>
      simp [hk, hdm, DisableModeration.truthy]

/-- Witness for C3 at a concrete credential-less config: moderation is
disabled even though `disableModeration` is `"soft"`. -/
theorem moderation_tri_state_witness :
    ConversationConfig.isModerationEnabled
      { apiKey := "", context := "", dry := true, disableModeration := .soft,
        model := "m", stream := false } = false :=
  ((moderation_tri_state _).2.2.2 rfl).2.2

/-- C4: after construction and after any sequence of assignments, an empty
`apiKey` forces `dry = true`; in particular a construction with no
credential yields `dry = true` whatever `dry` value was requested. -/
theorem dry_forced_without_credential (p : ConversationConfigParameters)
    (ops : List ConfigOp) :
    ((applyConfigOps (ConversationConfig.mk' p) ops).apiKey = "" →
      (applyConfigOps (ConversationConfig.mk' p) ops).dry = true) ∧
    (p.apiKey = none → (ConversationConfig.mk' p).dry = true) := by
  constructor
  · exact applyConfigOps_dry_inv _ _ (mk'_dry_inv p)
  · intro hk
    apply mk'_dry_inv
    rw [mk'_apiKey, hk]
    rfl

/-- Witness for C4: constructing with no credential and `dry` unset, then
even explicitly assigning `dry := false`, still leaves `dry = true`. -/
theorem dry_forced_without_credential_witness :
    (applyConfigOps (ConversationConfig.mk' {}) [ConfigOp.setDry false]).dry
        = true ∧
      (ConversationConfig.mk' {}).dry = true :=
  ⟨(dry_forced_without_credential {} [ConfigOp.setDry false]).1 (by decide),
    (dry_forced_without_credential {} []).2 rfl⟩

/-- C9: the stored context never has leading or trailing whitespace: the
constructor stores the trimmed context parameter, every assignment to the
`context` property stores the trimmed value, and after any sequence of
assignments the first and last characters of the stored context are
non-whitespace. -/
theorem context_always_trimmed (p : ConversationConfigParameters)
    (ops : List ConfigOp) (c' : ConversationConfig) (s : String) :
    (ConversationConfig.mk' p).context =
        trimStr (p.context.getD DEFAULT_CONTEXT) ∧
    (c'.setContext s).context = trimStr s ∧
    (∀ a, (applyConfigOps (ConversationConfig.mk' p) ops).context.toList.head?
        = some a → a.isWhitespace = false) ∧
    (∀ a, (applyConfigOps (ConversationConfig.mk' p) ops).context.toList.getLast?
        = some a → a.isWhitespace = false) := by
  refine ⟨?_, rfl, ?_, ?_⟩
  · simp [ConversationConfig.mk', ConversationConfig.setContext, trimStr_idem]
  · intro a ha
    have htr := applyConfigOps_contextTrimmed _ ops (mk'_contextTrimmed p)
    unfold ConversationConfig.contextTrimmed at htr
    rw [htr, toList_trimStr] at ha
    exact trimChars_head?_false _ _ ha
  · intro a ha
    have htr := applyConfigOps_contextTrimmed _ ops (mk'_contextTrimmed p)
    unfold ConversationConfig.contextTrimmed at htr
    rw [htr, toList_trimStr] at ha
    exact trimChars_getLast?_false _ _ ha

/-- Witness for C9 at the concrete context `" x "`: the constructor stores
its trimmed value, and the head of the stored context is the
non-whitespace `'x'`. -/
theorem context_always_trimmed_witness :
    (ConversationConfig.mk' { context := some " x " }).context =
        trimStr " x " ∧
      Char.isWhitespace 'x' = false :=
  ⟨(context_always_trimmed { context := some " x " } []
      { apiKey := "", context := "", dry := true, disableModeration := .off,
        model := "m", stream := false } "s").1,
    (context_always_trimmed { context := some " x " } []
      { apiKey := "", context := "", dry := true, disableModeration := .off,
        model := "m", stream := false } "s").2.2.1 'x' (by decide)⟩

/-- C10: when the `transformFunctionResult` pipeline itself fails,
`functionPrompt` propagates that error with the history completely
unchanged (no function message appended) and without invoking the
`onFunctionPromptError` hook, because the transform runs before message
insertion and outside the `try` block. -/
theorem transform_failure_propagates_without_rollback {ε : Type}
    (env : PromptEnv ε) (h : List Message) (freshId name : String) (e : ε) :
    functionPrompt env (.error e) h freshId name =
      { history := h, outcome := .error e, errorHookCalled := false } := rfl

/-! ### Helper lemmas about the prompt stages -/

theorem removeMessage_append_fresh (h : List Message) (m : Message)
    (hfresh : m.id ∉ h.map Message.id) : removeMessage (h ++ [m]) m.id = h := by
  unfold removeMessage
  rw [List.filter_append]
  have h2 : List.filter (fun x => decide (x.id ≠ m.id)) [m] = [] := by simp
  have h3 : List.filter (fun x => decide (x.id ≠ m.id)) h = h := by
    rw [List.filter_eq_self]
    intro a ha
    simp only [decide_eq_true_eq]
    intro hcontra
    exact hfresh (hcontra ▸ List.mem_map_of_mem Message.id ha)
  rw [h2, h3, List.append_nil]

theorem stagesExcept_error_iff {ε : Type} (env : PromptEnv ε) (e : ε) :
    stagesExcept env = .error e ↔
      env.hookResult = .error e ∨
      (env.hookResult = .ok () ∧ env.moderationResult = .error e) ∨
      (env.hookResult = .ok () ∧ env.moderationResult = .ok () ∧
        env.completionResult = .error e) := by
  unfold stagesExcept
  cases hh : env.hookResult with
  | error a => simp [hh]
  | ok u =>
    cases u
    cases hm : env.moderationResult with
    | error a => simp [hh, hm]
    | ok u' =>
      cases u'
      simp [hh, hm]

theorem runPromptStages_failure_hook_ok {ε : Type} (env : PromptEnv ε)
    (h1 : List Message) (m : Message) (e : ε)
    (hstage : stagesExcept env = .error e)
    (hhook : env.errorHookResult e = .ok ()) :
    runPromptStages env h1 m =
      { history := removeMessage h1 m.id, outcome := .error e,
        errorHookCalled := true } := by
  unfold runPromptStages
  rw [hstage]
  simp only [hhook]

theorem runPromptStages_failure_hook_err {ε : Type} (env : PromptEnv ε)
    (h1 : List Message) (m : Message) (e e2 : ε)
    (hstage : stagesExcept env = .error e)
    (hhook : env.errorHookResult e = .error e2) :
    runPromptStages env h1 m =
      { history := h1, outcome := .error e2, errorHookCalled := true } := by
  unfold runPromptStages
  rw [hstage]
  simp only [hhook]

theorem runPromptStages_failure_hookCalled {ε : Type} (env : PromptEnv ε)
    (h1 : List Message) (m : Message) (e : ε)
    (hstage : stagesExcept env = .error e) :
    (runPromptStages env h1 m).errorHookCalled = true := by
  cases her : env.errorHookResult e with
  | ok u =>
    cases u
    rw [runPromptStages_failure_hook_ok env h1 m e hstage her]
  | error e2 =>
    rw [runPromptStages_failure_hook_err env h1 m e e2 hstage her]

/-! ### The claims about `prompt`, `functionPrompt` and rollback -/

/-- C1 (amended): if any stage after the pending message is appended (the
`onUserPrompt`/`onFunctionPrompt` hook, `moderateMessage`, or
`getAssistantResponse`) fails with error `e`, and the corresponding error
hook itself completes successfully, then `prompt` and `functionPrompt`
remove the just-added message — the history afterwards equals the history
before the call — and rethrow the original error `e` unmodified. The
proviso that the error hook succeeds is forced by
the counterexample: the `catch` block awaits the error hook before the
removal and the rethrow. -/
theorem prompt_rollback_on_stage_failure {ε : Type} (env : PromptEnv ε)
    (h : List Message) (freshId text name : String) (v : JsValue) (e : ε)
    (hfresh : freshId ∉ h.map Message.id)
    (hstage :
      env.hookResult = .error e ∨
      (env.hookResult = .ok () ∧ env.moderationResult = .error e) ∨
      (env.hookResult = .ok () ∧ env.moderationResult = .ok () ∧
        env.completionResult = .error e))
    (hhook : env.errorHookResult e = .ok ()) :
    ((prompt env h freshId text).history = h ∧
      (prompt env h freshId text).outcome = .error e) ∧
    ((functionPrompt env (.ok v) h freshId name).history = h ∧
      (functionPrompt env (.ok v) h freshId name).outcome = .error e) := by
  have hse : stagesExcept env = .error e := (stagesExcept_error_iff env e).mpr hstage
  have hp : prompt env h freshId text =
      runPromptStages env (h ++ [userPromptMessage freshId text])
        (userPromptMessage freshId text) := rfl
  have hf : functionPrompt env (.ok v) h freshId name =
      runPromptStages env (h ++ [functionPromptMessage freshId name v])
        (functionPromptMessage freshId name v) := rfl
  rw [hp, hf, runPromptStages_failure_hook_ok env _ _ e hse hhook,
    runPromptStages_failure_hook_ok env _ _ e hse hhook]
  exact ⟨⟨removeMessage_append_fresh h _ hfresh, rfl⟩,
    ⟨removeMessage_append_fresh h _ hfresh, rfl⟩⟩

/-- Witness for the amended C1: a moderation failure with a well-behaved
error hook rolls the history back and rethrows `"flagged"`. -/
theorem prompt_rollback_witness :
    (prompt moderationFailEnv
        [{ id := "m0", role := .user, content := some "a", name := none }]
        "u9" "hi").history =
      [{ id := "m0", role := .user, content := some "a", name := none }] ∧
    (prompt moderationFailEnv
        [{ id := "m0", role := .user, content := some "a", name := none }]
        "u9" "hi").outcome = .error "flagged" :=
  (prompt_rollback_on_stage_failure moderationFailEnv
    [{ id := "m0", role := .user, content := some "a", name := none }]
    "u9" "hi" "fn" (.str "x") "flagged" (by decide)
    (.inr (.inl ⟨rfl, rfl⟩)) rfl).1

/-- C1 counterexample: with the `onUserPrompt` hook failing with
`"hook failure"` and the `onUserPromptError` hook itself failing, the
pending user message is not removed (the history is not restored to `[]`)
or the original error is not rethrown — refuting the claim as frozen at
this concrete input. -/
theorem prompt_rollback_counterexample :
    ¬ ((prompt failingErrorHookEnv [] "u1" "hi").history = [] ∧
      (prompt failingErrorHookEnv [] "u1" "hi").outcome =
        .error "hook failure") := by
  intro hc
  have hval : prompt failingErrorHookEnv [] "u1" "hi" =
      { history := [userPromptMessage "u1" "hi"],
        outcome := .error "error hook failure", errorHookCalled := true } := rfl
  rw [hval] at hc
  exact List.cons_ne_nil _ _ hc.1

/-- C2 (amended): on every failed turn the error hook is invoked, but it
gates the rollback rather than being unable to block it: when the error
hook succeeds, the just-added message is removed and the original error is
rethrown; when the error hook itself fails, the just-added message stays
in the history and the hook's error propagates in place of the original. -/
theorem error_hook_gates_rollback {ε : Type} (env : PromptEnv ε)
    (h : List Message) (freshId text name : String) (v : JsValue) (e : ε)
    (hfresh : freshId ∉ h.map Message.id)
    (hstage : stagesExcept env = .error e) :
    (prompt env h freshId text).errorHookCalled = true ∧
    (functionPrompt env (.ok v) h freshId name).errorHookCalled = true ∧
    (env.errorHookResult e = .ok () →
      (prompt env h freshId text).history = h ∧
      (prompt env h freshId text).outcome = .error e ∧
      (functionPrompt env (.ok v) h freshId name).history = h ∧
      (functionPrompt env (.ok v) h freshId name).outcome = .error e) ∧
    (∀ e2, env.errorHookResult e = .error e2 →
      (prompt env h freshId text).history =
          h ++ [userPromptMessage freshId text] ∧
      (prompt env h freshId text).outcome = .error e2 ∧
      (functionPrompt env (.ok v) h freshId name).history =
          h ++ [functionPromptMessage freshId name v] ∧
      (functionPrompt env (.ok v) h freshId name).outcome = .error e2) := by
  have hp : prompt env h freshId text =
      runPromptStages env (h ++ [userPromptMessage freshId text])
        (userPromptMessage freshId text) := rfl
  have hf : functionPrompt env (.ok v) h freshId name =
      runPromptStages env (h ++ [functionPromptMessage freshId name v])
        (functionPromptMessage freshId name v) := rfl
  refine ⟨?_, ?_, fun hok => ?_, fun e2 herr => ?_⟩
  · rw [hp]
    exact runPromptStages_failure_hookCalled env _ _ e hstage
  · rw [hf]
    exact runPromptStages_failure_hookCalled env _ _ e hstage
  · rw [hp, hf, runPromptStages_failure_hook_ok env _ _ e hstage hok,
      runPromptStages_failure_hook_ok env _ _ e hstage hok]
    exact ⟨removeMessage_append_fresh h _ hfresh, rfl,
      removeMessage_append_fresh h _ hfresh, rfl⟩
  · rw [hp, hf, runPromptStages_failure_hook_err env _ _ e e2 hstage herr,
      runPromptStages_failure_hook_err env _ _ e e2 hstage herr]
    exact ⟨rfl, rfl, rfl, rfl⟩

/-- Witness for the amended C2: with the failing error hook, the message
stays and the hook's error is thrown. -/
theorem error_hook_gates_rollback_witness :
    (prompt failingErrorHookEnv [] "u1" "hi").history =
        [userPromptMessage "u1" "hi"] ∧
      (prompt failingErrorHookEnv [] "u1" "hi").outcome =
        .error "error hook failure" := by
  have happ := error_hook_gates_rollback failingErrorHookEnv [] "u1" "hi"
    "fn" (.str "x") "hook failure" (by decide) rfl
  exact ⟨(happ.2.2.2 "error hook failure" rfl).1,
    (happ.2.2.2 "error hook failure" rfl).2.1⟩

/-- C2 counterexample: the error hook CAN block the rollback — with a
failing `onFunctionPromptError` hook, the just-added function message is
not removed and the original error is not the one rethrown, refuting the
claim as frozen at this concrete input. -/
theorem error_hook_blocks_rollback_counterexample :
    ¬ ((functionPrompt failingErrorHookEnv (.ok (.str "res")) [] "f1"
          "myFn").history = [] ∧
      (functionPrompt failingErrorHookEnv (.ok (.str "res")) [] "f1"
          "myFn").outcome = .error "hook failure") := by
  intro hc
  have hval : functionPrompt failingErrorHookEnv (.ok (.str "res")) [] "f1"
      "myFn" =
      { history := [functionPromptMessage "f1" "myFn" (.str "res")],
        outcome := .error "error hook failure", errorHookCalled := true } := rfl
  rw [hval] at hc
  exact List.cons_ne_nil _ _ hc.1

/-- C8: `functionPrompt` appends — before running the function-prompt
hook, moderation and completion — a role=function message whose content is
the transformed result unchanged when it is a string and its
`JSON.stringify` encoding otherwise, carrying the function's name. -/
theorem function_prompt_stringifies_transformed_result {ε : Type}
    (env : PromptEnv ε) (h : List Message) (freshId name : String)
    (v : JsValue) (s : String) :
    functionResultToContent (.str s) = s ∧
    ((∀ t, v ≠ .str t) → functionResultToContent v = jsonStringify v) ∧
    functionPrompt env (.ok v) h freshId name =
      runPromptStages env (h ++ [functionPromptMessage freshId name v])
        (functionPromptMessage freshId name v) ∧
    (functionPromptMessage freshId name v).role = .function ∧
    (functionPromptMessage freshId name v).content =
      some (functionResultToContent v) ∧
    (functionPromptMessage freshId name v).name = some name := by
  refine ⟨rfl, ?_, rfl, rfl, rfl, rfl⟩
  intro hv
  cases v with
  | str t => exact absurd rfl (hv t)
  | num n => rfl
  | bool b => rfl
  | null => rfl
  | arr xs => rfl
  | obj fs => rfl

/-- Witness for C8: a non-string result is JSON-encoded, a string result
passes through unchanged. -/
theorem function_prompt_stringifies_witness :
    functionResultToContent (.num 42) = jsonStringify (.num 42) ∧
      functionResultToContent (.str "abc") = "abc" :=
  ⟨(function_prompt_stringifies_transformed_result moderationFailEnv []
      "f1" "fn" (.num 42) "abc").2.1 (fun _ ht => JsValue.noConfusion ht),
    (function_prompt_stringifies_transformed_result moderationFailEnv []
      "f1" "fn" (.num 42) "abc").1⟩

/-! ### Helper lemmas for `reprompt` -/

theorem findIdx?_go_eq {α : Type} (p : α → Bool) (l : List α) :
    ∀ (i acc : Nat) (a : α), l[i]? = some a → p a = true →
      (∀ k, k < i → ∀ b, l[k]? = some b → p b = false) →
      List.findIdx? p l acc = some (acc + i) := by
  induction l with
  | nil =>
    intro i acc a hget
    simp at hget
  | cons x xs ih =>
    intro i acc a hget hp hfirst
    cases i with
    | zero =>
      rw [List.getElem?_cons_zero, Option.some_inj] at hget
      subst hget
      rw [List.findIdx?_cons, if_pos hp]
      simp
    | succ i' =>
      have hx : p x = false :=
        hfirst 0 (Nat.succ_pos i') x List.getElem?_cons_zero
      rw [List.findIdx?_cons, if_neg (by simp [hx])]
      have hrec := ih i' (acc + 1) a
        (by rw [List.getElem?_cons_succ] at hget; exact hget) hp
        (fun k hk b hb => hfirst (k + 1) (Nat.succ_lt_succ hk) b
          (by rw [List.getElem?_cons_succ]; exact hb))
      rw [hrec]
      congr 1
      omega

theorem findIdx?_eq_of_get {α : Type} (p : α → Bool) (l : List α) (i : Nat)
    (a : α) (hget : l[i]? = some a) (hp : p a = true)
    (hfirst : ∀ k, k < i → ∀ b, l[k]? = some b → p b = false) :
    l.findIdx? p = some i := by
  have hgo := findIdx?_go_eq p l i 0 a hget hp hfirst
  simpa using hgo

/-- With pairwise-distinct ids (uuids), the target's index is the first
index carrying its id. -/
theorem nodup_id_first (h : List Message) (i : Nat) (tm : Message)
    (hnodup : (h.map Message.id).Nodup) (hti : h[i]? = some tm) :
    ∀ k, k < i → ∀ b, h[k]? = some b → decide (b.id = tm.id) = false := by
  intro k hk b hb
  simp only [decide_eq_false_iff_not]
  intro hcontra
  have hmk : (h.map Message.id)[k]? = some b.id := by
    rw [List.getElem?_map, hb]
    rfl
  have hmi : (h.map Message.id)[i]? = some tm.id := by
    rw [List.getElem?_map, hti]
    rfl
  obtain ⟨hklen, -⟩ := List.getElem?_eq_some.mp hmk
  have hki : k = i :=
    List.getElem?_inj hklen hnodup (by rw [hmk, hmi, hcontra])
  omega

theorem prevUser_eq_some (h : List Message) :
    ∀ (i j : Nat) (um : Message), h[j]? = some um → um.role = .user →
      j ≤ i → i < h.length →
      (∀ k, j < k → k ≤ i → ∀ mk, h[k]? = some mk → mk.role ≠ .user) →
      prevUser h i = some (j, um) := by
  intro i
  induction i with
  | zero =>
    intro j um hj hu hji _ _
    have hj0 : j = 0 := Nat.le_zero.mp hji
    subst hj0
    unfold prevUser
    rw [hj]
    simp [hu]
  | succ i' ih =>
    intro j um hj hu hji hil hnone
    cases hmi : h[i' + 1]? with
    | none =>
      exfalso
      have hsome : h[i' + 1]? = some (h.get ⟨i' + 1, hil⟩) := by
        rw [List.getElem?_eq_some]
        exact ⟨hil, rfl⟩
      rw [hmi] at hsome
      exact Option.noConfusion hsome
    | some mi =>
      by_cases hmu : mi.role = .user
      · have hj' : j = i' + 1 := by
          by_contra hne
          exact hnone (i' + 1) (Nat.lt_of_le_of_ne hji hne) (Nat.le_refl _)
            mi hmi hmu
        subst hj'
        rw [hj, Option.some_inj] at hmi
        subst hmi
        unfold prevUser
        rw [hj]
        simp [hu]
      · have hji' : j ≤ i' := by
          by_contra hgt
          have hj' : j = i' + 1 := by omega
          subst hj'
          rw [hj, Option.some_inj] at hmi
          exact hmu (hmi ▸ hu)
        have hrec := ih j um hj hu hji' (by omega)
          (fun k h1 h2 mk hmk => hnone k h1 (by omega) mk hmk)
        unfold prevUser
        rw [hmi]
        simp [hmu, hrec]

theorem prevUser_eq_none (h : List Message) :
    ∀ (i : Nat), (∀ k, k ≤ i → ∀ mk, h[k]? = some mk → mk.role ≠ .user) →
      prevUser h i = none := by
  intro i
  induction i with
  | zero =>
    intro hn
    unfold prevUser
    cases h0 : h[0]? with
    | none => rfl
    | some m => simp [hn 0 (Nat.le_refl 0) m h0]
  | succ i' ih =>
    intro hn
    unfold prevUser
    cases hmi : h[i' + 1]? with
    | none => rfl
    | some mi =>
      simp [hn (i' + 1) (Nat.le_refl _) mi hmi,
        ih (fun k hk mk hmk => hn k (by omega) mk hmk)]

theorem foldl_removeMessage_filter (l : List Message) :
    ∀ (init : List Message),
      l.foldl (fun acc m => removeMessage acc m.id) init =
        init.filter (fun x => decide (x.id ∉ l.map Message.id)) := by
  induction l with
  | nil =>
    intro init
    simp [List.filter_eq_self]
  | cons m l ih =>
    intro init
    rw [List.foldl_cons, ih (removeMessage init m.id)]
    unfold removeMessage
    rw [List.filter_filter]
    apply List.filter_congr
    intro x _
    rw [Bool.and_comm, ← Bool.decide_and, decide_eq_decide]
    simp only [List.map_cons, List.mem_cons, not_or]

theorem foldl_removeMessage_drop (h : List Message) (j : Nat)
    (hnodup : (h.map Message.id).Nodup) :
    (h.drop j).foldl (fun acc m => removeMessage acc m.id) h = h.take j := by
  rw [foldl_removeMessage_filter]
  have hsplit := List.take_append_drop j h
  have hdisj : (List.map Message.id (h.take j)).Disjoint
      (List.map Message.id (h.drop j)) := by
    have hnd : (List.map Message.id (h.take j) ++
        List.map Message.id (h.drop j)).Nodup := by
      rw [← List.map_append, hsplit]
      exact hnodup
    exact (List.nodup_append.mp hnd).2.2
  have hstep :
      List.filter (fun x => decide (x.id ∉ (h.drop j).map Message.id)) h =
        List.filter (fun x => decide (x.id ∉ (h.drop j).map Message.id))
          (h.take j ++ h.drop j) := by
    rw [hsplit]
  rw [hstep, List.filter_append]
  have h1 : List.filter (fun x => decide (x.id ∉ (h.drop j).map Message.id))
      (h.take j) = h.take j := by
    rw [List.filter_eq_self]
    intro a ha
    simp only [decide_eq_true_eq]
    exact List.disjoint_left.mp hdisj (List.mem_map_of_mem Message.id ha)
  have h2 : List.filter (fun x => decide (x.id ∉ (h.drop j).map Message.id))
      (h.drop j) = [] := by
    rw [List.filter_eq_nil_iff]
    intro a ha
    simp only [decide_eq_true_eq, not_not]
    exact List.mem_map_of_mem Message.id ha
  rw [h1, h2, List.append_nil]

/-! ### The claims about `reprompt` -/

/-- C5: when the target id sits at index `i` and the nearest message with
role=user at or before it sits at index `j` with original content `um`,
`repromptResolve` removes that user message and everything after it
(leaving `h.take j`) and reissues a prompt whose content is `newPrompt`
when given, else the removed user message's original content. -/
theorem reprompt_truncation (h : List Message) (fromId : String)
    (newPrompt : Option String) (i j : Nat) (tm um : Message)
    (hnodup : (h.map Message.id).Nodup)
    (hti : h[i]? = some tm) (htid : tm.id = fromId)
    (huj : h[j]? = some um) (hurole : um.role = .user) (hji : j ≤ i)
    (hnouser : ∀ k, j < k → k ≤ i → ∀ mk, h[k]? = some mk →
      mk.role ≠ .user) :
    repromptResolve h fromId newPrompt =
      (h.take j, .ok (newPrompt.getD (um.content.getD ""))) := by
  obtain ⟨hil, -⟩ := List.getElem?_eq_some.mp hti
  have hfind : h.findIdx? (fun m => decide (m.id = fromId)) = some i := by
    apply findIdx?_eq_of_get _ h i tm hti (by simp [htid])
    intro k hk b hb
    have hne := nodup_id_first h i tm hnodup hti k hk b hb
    rwa [htid] at hne
  have hprev := prevUser_eq_some h i j um huj hurole hji hil hnouser
  have hfold := foldl_removeMessage_drop h j hnodup
  simp only [repromptResolve, hfind, hfold, hprev]

/-- Witness for C5: the spec's two examples on
`[sys, user1, asst1, user2, asst2]`: `reprompt(asst2)` truncates to
`[sys, user1, asst1]` and reissues user2's content; and
`reprompt(asst1, "new text")` truncates to `[sys]` and reissues
`"new text"`. -/
theorem reprompt_truncation_witness :
    repromptResolve exampleHistory "a2" none =
        (exampleHistory.take 3, .ok "How are you?") ∧
      repromptResolve exampleHistory "a1" (some "new text") =
        (exampleHistory.take 1, .ok "new text") := by
  constructor
  · exact reprompt_truncation exampleHistory "a2" none 4 3 asst2Msg user2Msg
      (by decide) rfl rfl rfl rfl (by omega)
      (fun k h1 h2 mk hmk hrole => by
        have hk : k = 4 := by omega
        subst hk
        rw [show exampleHistory[4]? = some asst2Msg from rfl,
          Option.some_inj] at hmk
        subst hmk
        exact absurd hrole (by decide))
  · exact reprompt_truncation exampleHistory "a1" (some "new text") 2 1
      asst1Msg user1Msg
      (by decide) rfl rfl rfl rfl (by omega)
      (fun k h1 h2 mk hmk hrole => by
        have hk : k = 2 := by omega
        subst hk
        rw [show exampleHistory[2]? = some asst1Msg from rfl,
          Option.some_inj] at hmk
        subst hmk
        exact absurd hrole (by decide))

/-- C6: `repromptResolve` fails with the message-not-found error when the
id is absent from the history, and with the no-previous-user-message error
when no role=user message exists at or before the target; in both failure
cases the returned history is the input history — nothing was removed. -/
theorem reprompt_not_found (h : List Message) (fromId : String)
    (newPrompt : Option String) :
    (fromId ∉ h.map Message.id →
      repromptResolve h fromId newPrompt =
        (h, .error (.messageNotFound fromId))) ∧
    (∀ (i : Nat) (tm : Message), (h.map Message.id).Nodup →
      h[i]? = some tm → tm.id = fromId →
      (∀ (k : Nat), k ≤ i → ∀ (mk : Message), h[k]? = some mk →
        mk.role ≠ .user) →
      repromptResolve h fromId newPrompt =
        (h, .error (.noPreviousUserMessage fromId))) := by
  constructor
  · intro habs
    have hnone : h.findIdx? (fun m => decide (m.id = fromId)) = none := by
      rw [List.findIdx?_eq_none_iff]
      intro x hx
      simp only [decide_eq_false_iff_not]
      intro hcontra
      exact habs (hcontra ▸ List.mem_map_of_mem Message.id hx)
    simp only [repromptResolve, hnone]
  · intro i tm hnodup hti htid hnouser
    have hfind : h.findIdx? (fun m => decide (m.id = fromId)) = some i := by
      apply findIdx?_eq_of_get _ h i tm hti (by simp [htid])
      intro k hk b hb
      have hne := nodup_id_first h i tm hnodup hti k hk b hb
      rwa [htid] at hne
    have hprev := prevUser_eq_none h i hnouser
    simp only [repromptResolve, hfind, hprev]

/-- Witness for C6: an absent id `"zz"` and a target (`sys`) with no user
message at or before it both fail with the corresponding error and leave
the example history untouched. -/
theorem reprompt_not_found_witness :
    repromptResolve exampleHistory "zz" none =
        (exampleHistory, .error (.messageNotFound "zz")) ∧
      repromptResolve exampleHistory "s" none =
        (exampleHistory, .error (.noPreviousUserMessage "s")) := by
  constructor
  · exact (reprompt_not_found exampleHistory "zz" none).1 (by decide)
  · exact (reprompt_not_found exampleHistory "s" none).2 0 sysMsg
      (by decide) rfl rfl
      (fun k hk mk hmk hrole => by
        have hk0 : k = 0 := by omega
        subst hk0
        rw [show exampleHistory[0]? = some sysMsg from rfl,
          Option.some_inj] at hmk
        subst hmk
        exact absurd hrole (by decide))

/-! ### The serialization round-trip claim -/

/-- Rebuilding a config from its serialized shape reproduces it, given the
two invariants every reachable config satisfies: the stored context is
trim-fixed, and an empty credential forces `dry`. -/
theorem mk'_configToJSON (cfg : ConversationConfig)
    (hctx : cfg.context = trimStr cfg.context)
    (hdry : cfg.apiKey = "" → cfg.dry = true) :
    ConversationConfig.mk' (configToJSON cfg) = cfg := by
  obtain ⟨ak, ctx, dr, dm, mdl, st⟩ := cfg
  simp only at hctx hdry
  unfold ConversationConfig.mk' configToJSON ConversationConfig.setContext
    ConversationConfig.setDry
  by_cases hk : ak = ""
  · have hd := hdry hk
    subst hd
    subst hk
    simp [trimStr_idem, ← hctx]
  · simp [hk, trimStr_idem, ← hctx]

/-- C7: `fromJSON (toJSON c)` reconstructs a conversation with the same
id, message sequence, config, request options, callable functions and
per-plugin data as `c`, modulo the `transformConversationJson` transform
`t` a plugin applies during `toJSON`: in general the result is exactly the
conversation rebuilt from the transformed JSON, and with the identity
transform it is `c` itself. The two hypotheses are the config invariants
every constructed config satisfies. -/
theorem conversation_roundtrip (c : Conversation)
    (t : ConversationModel → ConversationModel)
    (hctx : c.config.context = trimStr c.config.context)
    (hdry : c.config.apiKey = "" → c.config.dry = true) :
    Conversation.fromJSON (c.toJSON t) =
        conversationOfModel (t (toJSONBase c)) ∧
      Conversation.fromJSON (c.toJSON (fun j => j)) = c := by
  constructor
  · rfl
  · show conversationOfModel (toJSONBase c) = c
    unfold conversationOfModel toJSONBase
    rw [mk'_configToJSON c.config hctx hdry]
  -- structure eta closes the remaining record equality

/-- Witness for C7 at a concrete conversation with a credential and the
example history: the identity-transform round trip is the identity. -/
theorem conversation_roundtrip_witness :
    Conversation.fromJSON
        (Conversation.toJSON
          { id := "c1",
            config := ConversationConfig.mk'
              { apiKey := some "k", context := some "ctx" },
            requestOptions := "ro", callableFunctions := ["f"],
            history := exampleHistory, pluginsData := [("p", "d")] }
          (fun j => j)) =
      { id := "c1",
        config := ConversationConfig.mk'
          { apiKey := some "k", context := some "ctx" },
        requestOptions := "ro", callableFunctions := ["f"],
        history := exampleHistory, pluginsData := [("p", "d")] } :=
  (conversation_roundtrip _ (fun j => j) (by decide) (by decide)).2

end GptTurbo
